/-
Verification of the UNION fractal-evolution repository.

This file shallowly embeds the numeric core of the repository
(`src/FractalCreator/src`): the complex-arithmetic primitive
(`math/Complex.h`), the deformation / escape-time evaluator
(`fractals/DeformableFractal.cpp`), the genome model, genetic operators
and gallery (`evolution/GeneticEvolutionEngine.cpp` / `.h`).

Modelling conventions:
- C++ `float` / `double` values are embedded as exact reals (`ℝ`) on the
  analytic side (trigonometric deformation, escape loop) and as exact
  rationals (`ℚ`) on the purely arithmetic side (genome, distances,
  gallery), so that the arithmetic claims are decidable.
- `std::mt19937` and the distribution objects are embedded as an oracle
  (`RandomSource`) of draw streams consumed positionally, mirroring the
  order in which the C++ code consumes the single generator.
- `static_cast<int>` on a floating value is truncation toward zero
  (`cppTrunc`); C++ `%` on `int` is the truncated remainder `Int.tmod`.
- Wall-clock fields (gallery `creationTime`, thumbnails) are omitted.
-/
import Mathlib

namespace Union

/-! ### `math/Complex.h` -/

/-- The repository's 2D complex value type (`Complex.h`). -/
@[ext]
structure Complex where
  real : ℝ
  imag : ℝ

noncomputable section RealSide

namespace Complex

/-- Source `Complex::operator+`. -/
protected def add (a b : Complex) : Complex := ⟨a.real + b.real, a.imag + b.imag⟩

/-- Source `Complex::operator-`. -/
protected def sub (a b : Complex) : Complex := ⟨a.real - b.real, a.imag - b.imag⟩

/-- Source `Complex::operator*` (complex multiplication). -/
protected def mul (a b : Complex) : Complex :=
  ⟨a.real * b.real - a.imag * b.imag, a.real * b.imag + a.imag * b.real⟩

/-- Source `Complex::operator*(double scalar)`. -/
protected def smul (a : Complex) (s : ℝ) : Complex := ⟨a.real * s, a.imag * s⟩

instance : Add Complex := ⟨Complex.add⟩
instance : Sub Complex := ⟨Complex.sub⟩
instance : Mul Complex := ⟨Complex.mul⟩
instance : HMul Complex ℝ Complex := ⟨Complex.smul⟩

/-- Source `Complex::MagnitudeSquared`. -/
def MagnitudeSquared (a : Complex) : ℝ := a.real * a.real + a.imag * a.imag

/-- Source `Complex::Magnitude`. -/
def Magnitude (a : Complex) : ℝ := Real.sqrt a.MagnitudeSquared

end Complex

/-! ### `generation/FractalTypes.h`

`DeformFunction` is a C++ enum with underlying `int` values `SIN = 0`,
`COS`, `ABS`, `ATAN`, `SINH`, `COSH`, `SQRT_ABS`, `ASIN`, `TAN`,
`SIN_ABS`, `COS_SQUARE`, `COUNT = 11`.  We embed the enum as its
underlying integer so that the `static_cast` in the genome decoding can
be modelled faithfully. -/

/-- One deformation pole (`DeformState` in `FractalTypes.h`); the
`function` field is the underlying integer of the `DeformFunction` enum. -/
structure DeformState where
  angle : ℝ := 0
  freq : ℝ := 1
  phase : ℝ := 0
  function : ℤ := 0
  edgeGlow : ℝ := 1
  edgeHueShift : ℝ := 1

/-- Semantics of `std::clamp(v, lo, hi)` on reals. -/
def cppClamp (v lo hi : ℝ) : ℝ := if v < lo then lo else if hi < v then hi else v

/-! ### `fractals/DeformableFractal.cpp`

The mutable state of a `DeformableFractal` object (members inherited
from `BaseFractal` included).  The string parameter map is embedded as a
total function updated pointwise by `SetParameter`. -/

/-- The observable state of a `DeformableFractal`. -/
structure DeformableFractal where
  m_juliaConstant : Complex := ⟨-0.7, 0.27015⟩
  m_maxIterations : ℕ := 200
  m_escapeThreshold : ℝ := 4
  m_deformStateA : DeformState := {}
  m_deformStateB : DeformState := {}
  m_functionBlend : ℝ := 0.5
  m_deformMix : ℝ := 0.5
  m_shift : ℝ := 0
  m_breathingEnabled : Bool := false
  m_breathingTime : ℝ := 0
  m_breathingDuration : ℝ := 4
  m_parameters : String → ℝ := fun _ => 0

namespace DeformableFractal

/-- Source `DeformableFractal::ApplyFunction`: the `switch` over the enum's
underlying integer; unknown selectors fall through to `default: return z`. -/
def ApplyFunction (z : Complex) (func : ℤ) : Complex :=
  if func = 0 then      -- SIN
    ⟨Real.sin z.real * Real.cosh z.imag, Real.cos z.real * Real.sinh z.imag⟩
  else if func = 1 then -- COS
    ⟨Real.cos z.real * Real.cosh z.imag, -(Real.sin z.real) * Real.sinh z.imag⟩
  else if func = 2 then -- ABS
    ⟨|z.real|, |z.imag|⟩
  else if func = 3 then -- ATAN
    ⟨Real.arctan z.real, Real.arctan z.imag⟩
  else if func = 4 then -- SINH
    ⟨Real.sinh z.real * Real.cos z.imag, Real.cosh z.real * Real.sin z.imag⟩
  else if func = 5 then -- COSH
    ⟨Real.cosh z.real * Real.cos z.imag, Real.sinh z.real * Real.sin z.imag⟩
  else if func = 6 then -- SQRT_ABS
    ⟨Real.sqrt |z.real|, Real.sqrt |z.imag|⟩
  else if func = 7 then -- ASIN
    ⟨Real.arcsin (cppClamp z.real (-1) 1), Real.arcsin (cppClamp z.imag (-1) 1)⟩
  else if func = 8 then -- TAN
    ⟨Real.tan z.real, Real.tanh z.imag⟩
  else if func = 9 then -- SIN_ABS
    ⟨Real.sin |z.real|, Real.sin |z.imag|⟩
  else if func = 10 then -- COS_SQUARE
    ⟨Real.cos z.real * Real.cos z.real, Real.cos z.imag * Real.cos z.imag⟩
  else z

/-- Source `DeformableFractal::Rotate`. -/
def Rotate (z : Complex) (angle : ℝ) : Complex :=
  ⟨Real.cos angle * z.real - Real.sin angle * z.imag,
   Real.sin angle * z.real + Real.cos angle * z.imag⟩

/-- Source `DeformableFractal::Deform`.  Note what the code actually does: the
`time` argument is ignored; the scaled point is built from the
*un-rotated* `z` (a complex scaling by `state.freq` plus the member
`m_shift + state.phase` on the real axis); and the result is
`rotated + transformed * 0.5`. -/
def Deform (f : DeformableFractal) (z : Complex) (state : DeformState)
    (time : ℝ) : Complex :=
  let rotated := Rotate z state.angle
  let scaled := z * state.freq + (⟨f.m_shift + state.phase, 0⟩ : Complex)
  let transformed := ApplyFunction scaled state.function
  rotated + transformed * (0.5 : ℝ)

/-- Source `GetBreathingPhase`. -/
def GetBreathingPhase (f : DeformableFractal) : ℝ :=
  f.m_breathingTime / f.m_breathingDuration * 2 * Real.pi

/-- The `currentDeformMix` local computed at the top of both
`CalculateIterations` and `CalculateSmooth`. -/
def currentDeformMix (f : DeformableFractal) : ℝ :=
  if f.m_breathingEnabled then 0.5 + 0.5 * Real.sin f.GetBreathingPhase
  else f.m_deformMix

/-- One iteration of the loop body shared by `CalculateIterations` and
`CalculateSmooth`: deform by both states, blend, square and translate. -/
def IterStep (f : DeformableFractal) (mix : ℝ) (z : Complex) : Complex :=
  let deformA := f.Deform z f.m_deformStateA f.m_breathingTime
  let deformB := f.Deform z f.m_deformStateB f.m_breathingTime
  let blended := deformA * (1 - mix) + deformB * mix
  blended * blended + f.m_juliaConstant

/-- The iterate after `n` loop-body executions starting from `z0`. -/
def orbit (f : DeformableFractal) (mix : ℝ) (z0 : Complex) : ℕ → Complex
  | 0 => z0
  | n + 1 => f.IterStep mix (f.orbit mix z0 n)

/-- The loop of `DeformableFractal::CalculateIterations`: `fuel` is the
number of remaining iterations, `i` the current loop index. -/
def calcIterationsAux (f : DeformableFractal) (mix : ℝ) :
    ℕ → ℕ → Complex → ℕ
  | 0, _, _ => f.m_maxIterations
  | fuel + 1, i, z =>
    let z' := f.IterStep mix z
    if f.m_escapeThreshold < z'.MagnitudeSquared then i
    else calcIterationsAux f mix fuel (i + 1) z'

/-- Source `DeformableFractal::CalculateIterations`. -/
def CalculateIterations (f : DeformableFractal) (point : Complex) : ℕ :=
  calcIterationsAux f f.currentDeformMix f.m_maxIterations 0 point

/-- The loop of `DeformableFractal::CalculateSmooth`.  On escape the code
computes `i + 1 - log2(log2(|z|))` and returns `max(0, smooth)`; there is
no guard for `|z| ≤ 1`. -/
def calcSmoothAux (f : DeformableFractal) (mix : ℝ) :
    ℕ → ℕ → Complex → ℝ
  | 0, _, _ => (f.m_maxIterations : ℝ)
  | fuel + 1, i, z =>
    let z' := f.IterStep mix z
    if f.m_escapeThreshold < z'.MagnitudeSquared then
      max 0 ((i : ℝ) + 1 - Real.logb 2 (Real.logb 2 z'.Magnitude))
    else calcSmoothAux f mix fuel (i + 1) z'

/-- Source `DeformableFractal::CalculateSmooth`. -/
def CalculateSmooth (f : DeformableFractal) (point : Complex) : ℝ :=
  calcSmoothAux f f.currentDeformMix f.m_maxIterations 0 point

end DeformableFractal

/-! ### Claim-side deformation (C1)

`deformClaimC1` follows the words of claim C1 / spec §4.1: rotate, build
the *scalar* `t = freq * (rotated.real + rotated.imag) + phase + g`,
broadcast the selected scalar function into both components (the
per-axis exceptions ABS and SQRT_ABS use the rotated components), and
return the equal-weight combination `rotated*0.5 + transformed*0.5`. -/

/-- The scalar-broadcast transformed point described by the spec. -/
def specBroadcast (rotated : Complex) (t : ℝ) (func : ℤ) : Complex :=
  if func = 0 then ⟨Real.sin t, Real.sin t⟩
  else if func = 1 then ⟨Real.cos t, Real.cos t⟩
  else if func = 2 then ⟨|rotated.real|, |rotated.imag|⟩
  else if func = 3 then ⟨Real.arctan t, Real.arctan t⟩
  else if func = 4 then ⟨Real.sinh t, Real.sinh t⟩
  else if func = 5 then ⟨Real.cosh t, Real.cosh t⟩
  else if func = 6 then ⟨Real.sqrt |rotated.real|, Real.sqrt |rotated.imag|⟩
  else if func = 7 then ⟨Real.arcsin (cppClamp t (-1) 1), Real.arcsin (cppClamp t (-1) 1)⟩
  else if func = 8 then ⟨Real.tan t, Real.tanh t⟩
  else if func = 9 then ⟨Real.sin |t|, Real.sin |t|⟩
  else if func = 10 then ⟨Real.cos t * Real.cos t, Real.cos t * Real.cos t⟩
  else rotated

/-- Claim-side `Deform` as claim C1 states it. -/
def deformClaimC1 (z : Complex) (state : DeformState) (g : ℝ) : Complex :=
  let rotated := DeformableFractal.Rotate z state.angle
  let t := state.freq * (rotated.real + rotated.imag) + state.phase + g
  let transformed := specBroadcast rotated t state.function
  rotated * (0.5 : ℝ) + transformed * (0.5 : ℝ)

/-- The amended description of `Deform`, following the code: the rotation
of `z` plus one half of the selected componentwise function applied to
`z * freq + (shift + phase, 0)`; the deformation is complex-valued
componentwise, not a scalar broadcast, and the `time` argument plays no
role. -/
def deformAmendedC1 (f : DeformableFractal) (z : Complex) (state : DeformState) :
    Complex :=
  let rotated := DeformableFractal.Rotate z state.angle
  let scaled : Complex := ⟨z.real * state.freq + (f.m_shift + state.phase),
                           z.imag * state.freq + 0⟩
  let transformed := DeformableFractal.ApplyFunction scaled state.function
  ⟨rotated.real + transformed.real * 0.5, rotated.imag + transformed.imag * 0.5⟩

end RealSide

/-! ### `evolution/GeneticEvolutionEngine.h` — the genome model

The genome side is purely arithmetic, so it is embedded over `ℚ` and
kept computable. -/

/-- Source `FractalGenome::Gene`. -/
structure Gene where
  value : ℚ := 0
  mutationRate : ℚ := 0.1
  min : ℚ := -10
  max : ℚ := 10
deriving DecidableEq

/-- Source `FractalGenome` with the field initializers declared in
`GeneticEvolutionEngine.h` (lines 30–60). -/
structure FractalGenome where
  juliaReal : Gene := ⟨0.355, 0.05, -2, 2⟩
  juliaImag : Gene := ⟨0.355, 0.05, -2, 2⟩
  escapeThreshold : Gene := ⟨4, 0.02, 2, 10⟩
  angleA : Gene := ⟨0, 0.1, -3.14159, 3.14159⟩
  freqA : Gene := ⟨1, 0.08, 0.1, 3⟩
  phaseA : Gene := ⟨0, 0.1, -3.14159, 3.14159⟩
  functionA : Gene := ⟨0, 0.3, 0, 10⟩
  edgeGlowA : Gene := ⟨1, 0.05, 0.1, 2⟩
  edgeHueShiftA : Gene := ⟨1, 0.05, 0.1, 2⟩
  angleB : Gene := ⟨0, 0.1, -3.14159, 3.14159⟩
  freqB : Gene := ⟨1, 0.08, 0.1, 3⟩
  phaseB : Gene := ⟨0, 0.1, -3.14159, 3.14159⟩
  functionB : Gene := ⟨1, 0.3, 0, 10⟩
  edgeGlowB : Gene := ⟨1, 0.05, 0.1, 2⟩
  edgeHueShiftB : Gene := ⟨1, 0.05, 0.1, 2⟩
  functionBlend : Gene := ⟨0, 0.03, 0, 1⟩
  deformMix : Gene := ⟨0, 0.03, 0, 1⟩
  shift : Gene := ⟨0, 0.05, -2, 2⟩
  edgeSaturation : Gene := ⟨1, 0.02, 0, 2⟩
  fitness : ℚ := 0
  generation : ℤ := 0
  age : ℤ := 0
  parentIDs : List ℤ := []
deriving DecidableEq

/-- Semantics of `static_cast<int>` applied to a floating value: truncation toward
zero. -/
def cppTrunc (q : ℚ) : ℤ := if 0 ≤ q then ⌊q⌋ else ⌈q⌉

/-- Semantics of `std::clamp` on rationals. -/
def ratClamp (v lo hi : ℚ) : ℚ := if v < lo then lo else if hi < v then hi else v

/-- The function-selector decoding in `FractalGenome::ApplyToFractal`:
`static_cast<int>(gene.value) % static_cast<int>(DeformFunction::COUNT)`,
with C++ truncating division/remainder semantics on `int`. -/
def resolveFunction (v : ℚ) : ℤ := Int.tmod (cppTrunc v) 11

/-- The random draws consumed from the single `std::mt19937` stream, as
an oracle indexed by the position of the draw: `unif` models
`uniform_real_distribution<float>(0,1)`, `gauss σ` models
`normal_distribution<float>(0, σ)` and `nat` models a raw `m_rng()`
call. -/
structure RandomSource where
  unif : ℕ → ℚ
  gauss : ℕ → ℚ → ℚ
  nat : ℕ → ℕ

/-- The per-gene `mutateGene` lambda inside `FractalGenome::Mutate`:
with probability `mutationRate * globalMutationRate` add a
`normal_distribution(0, (max - min) * 0.1)` sample and clamp into
`[min, max]`.  Returns the updated gene and the next draw index. -/
def mutateGene (d : RandomSource) (globalMutationRate : ℚ) (g : Gene) (k : ℕ) :
    Gene × ℕ :=
  if d.unif k < g.mutationRate * globalMutationRate then
    ({ g with value := ratClamp (g.value + d.gauss (k + 1) ((g.max - g.min) * 0.1))
                               g.min g.max },
     k + 2)
  else (g, k + 1)

namespace FractalGenome

/-- Source `FractalGenome::Mutate`: every gene is processed in declaration
order through the shared random stream. -/
def Mutate (gnm : FractalGenome) (d : RandomSource) (globalMutationRate : ℚ)
    (k : ℕ) : FractalGenome × ℕ :=
  let r1 := mutateGene d globalMutationRate gnm.juliaReal k
  let r2 := mutateGene d globalMutationRate gnm.juliaImag r1.2
  let r3 := mutateGene d globalMutationRate gnm.escapeThreshold r2.2
  let r4 := mutateGene d globalMutationRate gnm.angleA r3.2
  let r5 := mutateGene d globalMutationRate gnm.freqA r4.2
  let r6 := mutateGene d globalMutationRate gnm.phaseA r5.2
  let r7 := mutateGene d globalMutationRate gnm.functionA r6.2
  let r8 := mutateGene d globalMutationRate gnm.edgeGlowA r7.2
  let r9 := mutateGene d globalMutationRate gnm.edgeHueShiftA r8.2
  let r10 := mutateGene d globalMutationRate gnm.angleB r9.2
  let r11 := mutateGene d globalMutationRate gnm.freqB r10.2
  let r12 := mutateGene d globalMutationRate gnm.phaseB r11.2
  let r13 := mutateGene d globalMutationRate gnm.functionB r12.2
  let r14 := mutateGene d globalMutationRate gnm.edgeGlowB r13.2
  let r15 := mutateGene d globalMutationRate gnm.edgeHueShiftB r14.2
  let r16 := mutateGene d globalMutationRate gnm.functionBlend r15.2
  let r17 := mutateGene d globalMutationRate gnm.deformMix r16.2
  let r18 := mutateGene d globalMutationRate gnm.shift r17.2
  let r19 := mutateGene d globalMutationRate gnm.edgeSaturation r18.2
  ({ gnm with
      juliaReal := r1.1, juliaImag := r2.1, escapeThreshold := r3.1,
      angleA := r4.1, freqA := r5.1, phaseA := r6.1, functionA := r7.1,
      edgeGlowA := r8.1, edgeHueShiftA := r9.1,
      angleB := r10.1, freqB := r11.1, phaseB := r12.1, functionB := r13.1,
      edgeGlowB := r14.1, edgeHueShiftB := r15.1,
      functionBlend := r16.1, deformMix := r17.1, shift := r18.1,
      edgeSaturation := r19.1 },
   r19.2)

end FractalGenome

/-- The per-gene `crossoverGene` lambda inside `FractalGenome::Crossover`:
start from `gene1`, take `gene2.value` with probability one half, and
average the two mutation rates. -/
def crossoverGene (d : RandomSource) (g1 g2 : Gene) (k : ℕ) : Gene × ℕ :=
  let result := if d.unif k < 0.5 then { g1 with value := g2.value } else g1
  ({ result with mutationRate := (g1.mutationRate + g2.mutationRate) * 0.5 }, k + 1)

namespace FractalGenome

/-- Source `FractalGenome::Crossover`.  The child starts default-constructed;
`parentIDs` records both parents' generation numbers. -/
def Crossover (parent1 parent2 : FractalGenome) (d : RandomSource) (k : ℕ) :
    FractalGenome × ℕ :=
  let c1 := crossoverGene d parent1.juliaReal parent2.juliaReal k
  let c2 := crossoverGene d parent1.juliaImag parent2.juliaImag c1.2
  let c3 := crossoverGene d parent1.escapeThreshold parent2.escapeThreshold c2.2
  let c4 := crossoverGene d parent1.angleA parent2.angleA c3.2
  let c5 := crossoverGene d parent1.freqA parent2.freqA c4.2
  let c6 := crossoverGene d parent1.phaseA parent2.phaseA c5.2
  let c7 := crossoverGene d parent1.functionA parent2.functionA c6.2
  let c8 := crossoverGene d parent1.edgeGlowA parent2.edgeGlowA c7.2
  let c9 := crossoverGene d parent1.edgeHueShiftA parent2.edgeHueShiftA c8.2
  let c10 := crossoverGene d parent1.angleB parent2.angleB c9.2
  let c11 := crossoverGene d parent1.freqB parent2.freqB c10.2
  let c12 := crossoverGene d parent1.phaseB parent2.phaseB c11.2
  let c13 := crossoverGene d parent1.functionB parent2.functionB c12.2
  let c14 := crossoverGene d parent1.edgeGlowB parent2.edgeGlowB c13.2
  let c15 := crossoverGene d parent1.edgeHueShiftB parent2.edgeHueShiftB c14.2
  let c16 := crossoverGene d parent1.functionBlend parent2.functionBlend c15.2
  let c17 := crossoverGene d parent1.deformMix parent2.deformMix c16.2
  let c18 := crossoverGene d parent1.shift parent2.shift c17.2
  let c19 := crossoverGene d parent1.edgeSaturation parent2.edgeSaturation c18.2
  ({ juliaReal := c1.1, juliaImag := c2.1, escapeThreshold := c3.1,
     angleA := c4.1, freqA := c5.1, phaseA := c6.1, functionA := c7.1,
     edgeGlowA := c8.1, edgeHueShiftA := c9.1,
     angleB := c10.1, freqB := c11.1, phaseB := c12.1, functionB := c13.1,
     edgeGlowB := c14.1, edgeHueShiftB := c15.1,
     functionBlend := c16.1, deformMix := c17.1, shift := c18.1,
     edgeSaturation := c19.1,
     parentIDs := [parent1.generation, parent2.generation] },
   c19.2)

/-- Source `FractalGenome::CalculateDistance`: the L1 sum over the structural
genes (julia constant, escape threshold, both states' angle, freq,
phase and function selector). -/
def CalculateDistance (a other : FractalGenome) : ℚ :=
  |a.juliaReal.value - other.juliaReal.value|
  + |a.juliaImag.value - other.juliaImag.value|
  + |a.escapeThreshold.value - other.escapeThreshold.value|
  + |a.angleA.value - other.angleA.value|
  + |a.freqA.value - other.freqA.value|
  + |a.phaseA.value - other.phaseA.value|
  + |a.functionA.value - other.functionA.value|
  + |a.angleB.value - other.angleB.value|
  + |a.freqB.value - other.freqB.value|
  + |a.phaseB.value - other.phaseB.value|
  + |a.functionB.value - other.functionB.value|

end FractalGenome

/-! ### `GeneticEvolutionEngine` population operations -/

/-- The engine parameters used by the generation loop
(`EvolutionParameters` in the header, restricted to the fields the
embedded operations read). -/
structure EvolutionParameters where
  populationSize : ℕ := 50
  maxGenerations : ℕ := 1000
  mutationRate : ℚ := 0.15
  crossoverRate : ℚ := 0.7
  elitePercentage : ℚ := 0.1
  targetFitness : ℚ := 0.95
  stagnationGenerations : ℕ := 50

/-- Source `GeneticEvolutionEngine::SortPopulationByFitness`: `std::sort` with
comparator `a.fitness > b.fitness` (descending); embedded as an
insertion sort with the corresponding non-strict total relation. -/
def SortPopulationByFitness (population : List FractalGenome) :
    List FractalGenome :=
  List.insertionSort (fun a b => b.fitness ≤ a.fitness) population

/-- The elite count in `GenerateOffspring`:
`static_cast<int>(populationSize * elitePercentage)` (truncation, not
rounding). -/
def eliteCountOf (params : EvolutionParameters) : ℕ :=
  (cppTrunc ((params.populationSize : ℚ) * params.elitePercentage)).toNat

/-- The offspring `while` loop in `GenerateOffspring`: each child picks
two parent indices from the selected pool with raw `m_rng()` draws,
crosses them over, mutates, and is tagged with the next generation
number. -/
def offspringLoop (sorted : List FractalGenome) (params : EvolutionParameters)
    (parents : List ℕ) (currentGeneration : ℤ) (d : RandomSource) :
    ℕ → ℕ → List FractalGenome
  | 0, _ => []
  | n + 1, k =>
    let parent1Idx := parents.getD (d.nat k % parents.length) 0
    let parent2Idx := parents.getD (d.nat (k + 1) % parents.length) 0
    let cross := FractalGenome.Crossover (sorted.getD parent1Idx {})
      (sorted.getD parent2Idx {}) d (k + 2)
    let mres := FractalGenome.Mutate cross.1 d params.mutationRate cross.2
    { mres.1 with generation := currentGeneration + 1 }
      :: offspringLoop sorted params parents currentGeneration d n mres.2

/-- Source `GeneticEvolutionEngine::GenerateOffspring`: sort, copy the elite
prefix unchanged, then fill up to `populationSize` with
crossover-and-mutation children. -/
def GenerateOffspring (population : List FractalGenome)
    (params : EvolutionParameters) (parents : List ℕ)
    (currentGeneration : ℤ) (d : RandomSource) (k : ℕ) : List FractalGenome :=
  let sorted := SortPopulationByFitness population
  let elite := sorted.take (eliteCountOf params)
  elite ++ offspringLoop sorted params parents currentGeneration d
    (params.populationSize - elite.length) k

/-- Source `GeneticEvolutionEngine::GetBestIndividual`: a default-constructed
genome on an empty population, otherwise `std::max_element` with
comparator `a.fitness < b.fitness` (the first genome of maximal
fitness). -/
def GetBestIndividual (population : List FractalGenome) : FractalGenome :=
  match population with
  | [] => {}
  | h :: t => t.foldl (fun best cand => if best.fitness < cand.fitness then cand else best) h

/-! ### `FractalGallery` -/

/-- Source `FractalGallery::GalleryEntry` (creation time and thumbnail bytes
are wall-clock/image data and are not modelled). -/
structure GalleryEntry where
  genome : FractalGenome
  fitness : ℚ
  name : String
  description : String := ""
  generation : ℤ := 0

/-- The decimal rendering `std::to_string` of a nonnegative integer. -/
def natToDec (n : ℕ) : String :=
  if n = 0 then "0" else ⟨((Nat.digits 10 n).map Nat.digitChar).reverse⟩

/-- The candidate names tried by `GenerateUniqueName`: the bare base
first, then `base_1`, `base_2`, …. -/
def candidateName (baseName : String) : ℕ → String
  | 0 => baseName
  | k + 1 => baseName ++ "_" ++ natToDec (k + 1)

/-- The `std::any_of` collision test in `GenerateUniqueName`. -/
def collides (entries : List GalleryEntry) (uniqueName : String) : Prop :=
  ∃ e ∈ entries, e.name = uniqueName

instance (entries : List GalleryEntry) (uniqueName : String) :
    Decidable (collides entries uniqueName) := List.decidableBEx _ entries

/-- The `while` loop of `FractalGallery::GenerateUniqueName`, with
explicit fuel: try `candidateName baseName k`, `k = 0, 1, 2, …`, until
one collides with no existing entry.  A fuel of `entries.length + 1`
always suffices (see `findFreeName_not_collides`), so the fuel-exhausted
branch is unreachable. -/
def findFreeName (entries : List GalleryEntry) (baseName : String) :
    ℕ → ℕ → String
  | 0, k => candidateName baseName k
  | fuel + 1, k =>
    if collides entries (candidateName baseName k) then
      findFreeName entries baseName fuel (k + 1)
    else candidateName baseName k

/-- Source `FractalGallery::GenerateUniqueName`. -/
def GenerateUniqueName (entries : List GalleryEntry) (baseName : String) :
    String :=
  findFreeName entries baseName (entries.length + 1) 0

/-- The state of a `FractalGallery`. -/
structure FractalGallery where
  m_galleryPath : String := "fractal_gallery/"
  m_entries : List GalleryEntry := []

namespace FractalGallery

/-- Source `FractalGallery::AddFractal`: an empty `name` is replaced by a
generated unique name; the entry is appended. -/
def AddFractal (g : FractalGallery) (genome : FractalGenome) (fitness : ℚ)
    (name : String) (description : String) : FractalGallery :=
  let entry : GalleryEntry :=
    { genome := genome, fitness := fitness,
      name := if name = "" then GenerateUniqueName g.m_entries "Fractal" else name,
      description := description, generation := genome.generation }
  { g with m_entries := g.m_entries ++ [entry] }

/-- Source `FractalGallery::GetAllFractals`. -/
def GetAllFractals (g : FractalGallery) : List GalleryEntry := g.m_entries

end FractalGallery

/-! ### `FractalGenome::ApplyToFractal` and the fractal setters -/

noncomputable section ApplySide

namespace DeformableFractal

/-- Source `BaseFractal::SetParameter`. -/
def SetParameter (f : DeformableFractal) (name : String) (v : ℝ) :
    DeformableFractal :=
  { f with m_parameters := fun s => if s = name then v else f.m_parameters s }

/-- Source `DeformableFractal::SetJuliaConstant` (also refreshes the parameter
map). -/
def SetJuliaConstant (f : DeformableFractal) (c : Complex) : DeformableFractal :=
  (({ f with m_juliaConstant := c }).SetParameter "julia_real" c.real).SetParameter
    "julia_imag" c.imag

/-- Source `BaseFractal::SetEscapeThreshold`. -/
def SetEscapeThreshold (f : DeformableFractal) (t : ℝ) : DeformableFractal :=
  { f with m_escapeThreshold := t }

/-- Source `DeformableFractal::SetDeformStateA`. -/
def SetDeformStateA (f : DeformableFractal) (s : DeformState) : DeformableFractal :=
  { f with m_deformStateA := s }

/-- Source `DeformableFractal::SetDeformStateB`. -/
def SetDeformStateB (f : DeformableFractal) (s : DeformState) : DeformableFractal :=
  { f with m_deformStateB := s }

/-- Source `DeformableFractal::SetFunctionBlend`. -/
def SetFunctionBlend (f : DeformableFractal) (v : ℝ) : DeformableFractal :=
  ({ f with m_functionBlend := v }).SetParameter "function_blend" v

/-- Source `DeformableFractal::SetDeformMix`. -/
def SetDeformMix (f : DeformableFractal) (v : ℝ) : DeformableFractal :=
  ({ f with m_deformMix := v }).SetParameter "deform_mix" v

/-- Source `DeformableFractal::SetShift`. -/
def SetShift (f : DeformableFractal) (v : ℝ) : DeformableFractal :=
  ({ f with m_shift := v }).SetParameter "shift" v

end DeformableFractal

namespace FractalGenome

/-- Source `FractalGenome::ApplyToFractal`: write every gene into the
configuration, decoding the two function-selector genes with
`resolveFunction`. -/
def ApplyToFractal (g : FractalGenome) (fractal : DeformableFractal) :
    DeformableFractal :=
  let f1 := fractal.SetJuliaConstant ⟨(g.juliaReal.value : ℝ), (g.juliaImag.value : ℝ)⟩
  let f2 := f1.SetEscapeThreshold (g.escapeThreshold.value : ℝ)
  let stateA : DeformState :=
    { angle := (g.angleA.value : ℝ), freq := (g.freqA.value : ℝ),
      phase := (g.phaseA.value : ℝ), function := resolveFunction g.functionA.value,
      edgeGlow := (g.edgeGlowA.value : ℝ), edgeHueShift := (g.edgeHueShiftA.value : ℝ) }
  let stateB : DeformState :=
    { angle := (g.angleB.value : ℝ), freq := (g.freqB.value : ℝ),
      phase := (g.phaseB.value : ℝ), function := resolveFunction g.functionB.value,
      edgeGlow := (g.edgeGlowB.value : ℝ), edgeHueShift := (g.edgeHueShiftB.value : ℝ) }
  let f3 := f2.SetDeformStateA stateA
  let f4 := f3.SetDeformStateB stateB
  let f5 := f4.SetFunctionBlend (g.functionBlend.value : ℝ)
  let f6 := f5.SetDeformMix (g.deformMix.value : ℝ)
  let f7 := f6.SetShift (g.shift.value : ℝ)
  f7.SetParameter "edge_saturation" (g.edgeSaturation.value : ℝ)

end FractalGenome

end ApplySide

/-! ### Predicates and concrete fixtures used by the claim theorems -/

/-- The gene invariant stated in the spec: `value ∈ [min, max]`. -/
def geneInBounds (g : Gene) : Prop := g.min ≤ g.value ∧ g.value ≤ g.max

/-- All nineteen genes of a genome are within their declared bounds. -/
def genomeInBounds (g : FractalGenome) : Prop :=
  geneInBounds g.juliaReal ∧ geneInBounds g.juliaImag ∧
  geneInBounds g.escapeThreshold ∧
  geneInBounds g.angleA ∧ geneInBounds g.freqA ∧ geneInBounds g.phaseA ∧
  geneInBounds g.functionA ∧ geneInBounds g.edgeGlowA ∧
  geneInBounds g.edgeHueShiftA ∧
  geneInBounds g.angleB ∧ geneInBounds g.freqB ∧ geneInBounds g.phaseB ∧
  geneInBounds g.functionB ∧ geneInBounds g.edgeGlowB ∧
  geneInBounds g.edgeHueShiftB ∧
  geneInBounds g.functionBlend ∧ geneInBounds g.deformMix ∧
  geneInBounds g.shift ∧ geneInBounds g.edgeSaturation

instance : IsTotal FractalGenome (fun a b => b.fitness ≤ a.fitness) :=
  ⟨fun a b => le_total b.fitness a.fitness⟩

instance : IsTrans FractalGenome (fun a b => b.fitness ≤ a.fitness) :=
  ⟨fun _ _ _ hab hbc => le_trans hbc hab⟩

/-- Fixture for C4: a configuration on which both deform states are the
identity (angle 0, freq 0, phase 0, shift 0, function ABS), so the loop
is the plain quadratic Julia map, with a small escape threshold `0.2`
that lets the orbit escape while its magnitude is still `≤ 1`. -/
noncomputable def c4Fractal : DeformableFractal :=
  { m_juliaConstant := ⟨0.4, 0⟩
    m_maxIterations := 2
    m_escapeThreshold := 0.2
    m_deformStateA := ⟨0, 0, 0, 2, 1, 1⟩
    m_deformStateB := ⟨0, 0, 0, 2, 1, 1⟩
    m_deformMix := 0
    m_shift := 0
    m_breathingEnabled := false }

/-- Fixture for C5: a genome whose A-selector gene sits at `9.7`
(rounding and truncation disagree) and whose B-selector gene sits at
`-2` (below the declared bounds). -/
def c5Genome : FractalGenome :=
  { functionA := ⟨9.7, 0.3, 0, 10⟩, functionB := ⟨-2, 0.3, 0, 10⟩ }

/-- Fixture for C6: four genomes with distinct fitness values and
distinct `juliaReal` marker values; the best genome carries the marker
value `4`. -/
def c6Pop : List FractalGenome :=
  [{ juliaReal := ⟨4, 0.1, -10, 10⟩, fitness := 4 },
   { juliaReal := ⟨3, 0.1, -10, 10⟩, fitness := 3 },
   { juliaReal := ⟨2, 0.1, -10, 10⟩, fitness := 2 },
   { juliaReal := ⟨1, 0.1, -10, 10⟩, fitness := 1 }]

/-- Fixture for C6: population 4 with elite percentage `0.2 > 0`, so the
code's `static_cast<int>(4 * 0.2) = 0` keeps no elite at all. -/
def c6Params : EvolutionParameters :=
  { populationSize := 4, elitePercentage := 0.2, mutationRate := 0.15 }

/-- Fixture for C6: a draw oracle whose uniform draws are all `1` (no
crossover swap, no mutation) and whose raw draws are all `0` (both
parents are always `parents[0]`). -/
def c6Draws : RandomSource := ⟨fun _ => 1, fun _ _ => 0, fun _ => 0⟩

/-- Fixture for C7: a draw oracle that always triggers mutation
(uniform draw `0`) with a large Gaussian sample `100`. -/
def c7Draws : RandomSource := ⟨fun _ => 0, fun _ _ => 100, fun _ => 0⟩

/-! ## Basic lemmas about the complex primitive -/

@[simp] theorem Complex.add_def (a b : Complex) :
    a + b = ⟨a.real + b.real, a.imag + b.imag⟩ := rfl

@[simp] theorem Complex.sub_def (a b : Complex) :
    a - b = ⟨a.real - b.real, a.imag - b.imag⟩ := rfl

@[simp] theorem Complex.mul_def (a b : Complex) :
    a * b = ⟨a.real * b.real - a.imag * b.imag,
             a.real * b.imag + a.imag * b.real⟩ := rfl

@[simp] theorem Complex.smul_def (a : Complex) (s : ℝ) :
    a * s = ⟨a.real * s, a.imag * s⟩ := rfl

@[simp] theorem Complex.magnitudeSquared_def (a : Complex) :
    a.MagnitudeSquared = a.real * a.real + a.imag * a.imag := rfl

/-! ## C1 — the deformation step -/

/-- C1 (counterexample): the claim's description of `Deform` — rotate,
form the scalar `t = freq * (rotated.real + rotated.imag) + phase + g`,
broadcast the selected scalar function into both components, and return
`rotated*0.5 + transformed*0.5` — is false of the code.  At `z = (0,0)`
with angle `0`, freq `1`, phase `0`, shift `0` and the COS selector the
code returns `(0.5, 0)` while the claimed formula yields `(0.5, 0.5)`. -/
theorem Deform_claim_counterexample :
    DeformableFractal.Deform {} ⟨0, 0⟩ ⟨0, 1, 0, 1, 1, 1⟩ 0
      ≠ deformClaimC1 ⟨0, 0⟩ ⟨0, 1, 0, 1, 1, 1⟩ 0 := by
  have hcode : DeformableFractal.Deform {} ⟨0, 0⟩ ⟨0, 1, 0, 1, 1, 1⟩ 0
      = ⟨0.5, 0⟩ := by
    simp [DeformableFractal.Deform, DeformableFractal.Rotate,
      DeformableFractal.ApplyFunction]
  have hclaim : deformClaimC1 ⟨0, 0⟩ ⟨0, 1, 0, 1, 1, 1⟩ 0 = ⟨0.5, 0.5⟩ := by
    simp [deformClaimC1, DeformableFractal.Rotate, specBroadcast]
  rw [hcode, hclaim]
  intro h
  have := congrArg Complex.imag h
  norm_num at this

/-- C1 (amended): what `Deform(z, state, time)` actually computes: the
rotation of `z` by `state.angle`, plus one half of the componentwise
function table applied to the complex point
`z * state.freq + (m_shift + state.phase, 0)` built from the un-rotated
`z`; the `time` argument is ignored and the rotated part enters with
weight `1`, the transformed part with weight `0.5`. -/
theorem Deform_characterization (f : DeformableFractal) (z : Complex)
    (s : DeformState) (t : ℝ) :
    f.Deform z s t = deformAmendedC1 f z s := by
  simp only [DeformableFractal.Deform, deformAmendedC1, Complex.add_def,
    Complex.smul_def]

/-! ## C2 — the escape-time loop -/

/-- Unfolding step for `calcIterationsAux` when the updated iterate
escapes. -/
theorem calcIterationsAux_succ_escape (f : DeformableFractal) (mix : ℝ)
    (fuel i : ℕ) (z : Complex)
    (h : f.m_escapeThreshold < (f.IterStep mix z).MagnitudeSquared) :
    DeformableFractal.calcIterationsAux f mix (fuel + 1) i z = i := by
  simp only [DeformableFractal.calcIterationsAux]
  rw [if_pos h]

/-- Unfolding step for `calcIterationsAux` when the updated iterate does
not escape. -/
theorem calcIterationsAux_succ_step (f : DeformableFractal) (mix : ℝ)
    (fuel i : ℕ) (z : Complex)
    (h : ¬ f.m_escapeThreshold < (f.IterStep mix z).MagnitudeSquared) :
    DeformableFractal.calcIterationsAux f mix (fuel + 1) i z
      = DeformableFractal.calcIterationsAux f mix fuel (i + 1) (f.IterStep mix z) := by
  simp only [DeformableFractal.calcIterationsAux]
  rw [if_neg h]

/-- Loop invariant for `calcIterationsAux`: starting at loop index `i`
with the `i`-th orbit point and `fuel = maxIterations - i` remaining
iterations, the loop either runs to exhaustion with no escape at any
index in `[i, maxIterations)`, or returns the least escaping index
`≥ i`. -/
theorem calcIterationsAux_characterization (f : DeformableFractal) (mix : ℝ)
    (p : Complex) :
    ∀ fuel i, i + fuel = f.m_maxIterations →
      (DeformableFractal.calcIterationsAux f mix fuel i (f.orbit mix p i)
          = f.m_maxIterations ∧
        ∀ j, i ≤ j → j < f.m_maxIterations →
          ¬ f.m_escapeThreshold < (f.orbit mix p (j + 1)).MagnitudeSquared) ∨
      (∃ k, DeformableFractal.calcIterationsAux f mix fuel i (f.orbit mix p i) = k ∧
        i ≤ k ∧ k < f.m_maxIterations ∧
        f.m_escapeThreshold < (f.orbit mix p (k + 1)).MagnitudeSquared ∧
        ∀ j, i ≤ j → j < k →
          ¬ f.m_escapeThreshold < (f.orbit mix p (j + 1)).MagnitudeSquared) := by
  intro fuel
  induction fuel with
  | zero =>
    intro i h
    left
    constructor
    · simp [DeformableFractal.calcIterationsAux]
    · intro j hij hjN
      omega
  | succ n ih =>
    intro i h
    have horb : f.IterStep mix (f.orbit mix p i) = f.orbit mix p (i + 1) := rfl
    by_cases hesc :
        f.m_escapeThreshold < (f.orbit mix p (i + 1)).MagnitudeSquared
    · right
      refine ⟨i, ?_, le_refl i, by omega, hesc, fun j hij hji => by omega⟩
      rw [calcIterationsAux_succ_escape]
      rw [horb]
      exact hesc
    · have hstep := calcIterationsAux_succ_step f mix n i (f.orbit mix p i)
        (by rw [horb]; exact hesc)
      rw [horb] at hstep
      rcases ih (i + 1) (by omega) with ⟨heq, hall⟩ | ⟨k, hk, hik, hkN, hPk, hmin⟩
      · left
        refine ⟨by rw [hstep]; exact heq, fun j hij hjN => ?_⟩
        rcases Nat.eq_or_lt_of_le hij with rfl | hlt
        · exact hesc
        · exact hall j hlt hjN
      · right
        refine ⟨k, by rw [hstep]; exact hk, by omega, hkN, hPk,
          fun j hij hjk => ?_⟩
        rcases Nat.eq_or_lt_of_le hij with rfl | hlt
        · exact hesc
        · exact hmin j hlt hjk

/-- C2: for every point and configuration with `maxIterations > 0`,
`CalculateIterations` either reports the first loop index
`i ∈ [0, maxIterations)` whose *updated* iterate satisfies
`MagnitudeSquared > escapeThreshold`, or — when no iteration escapes —
returns exactly `maxIterations` (the non-escaped marker). -/
theorem CalculateIterations_first_escape (f : DeformableFractal) (p : Complex)
    (h : 0 < f.m_maxIterations) :
    (f.CalculateIterations p = f.m_maxIterations ∧
      ∀ i < f.m_maxIterations,
        ¬ f.m_escapeThreshold <
          (f.orbit f.currentDeformMix p (i + 1)).MagnitudeSquared) ∨
    (f.CalculateIterations p < f.m_maxIterations ∧
      f.m_escapeThreshold <
        (f.orbit f.currentDeformMix p (f.CalculateIterations p + 1)).MagnitudeSquared ∧
      ∀ j < f.CalculateIterations p,
        ¬ f.m_escapeThreshold <
          (f.orbit f.currentDeformMix p (j + 1)).MagnitudeSquared) := by
  have hchar := calcIterationsAux_characterization f f.currentDeformMix p
    f.m_maxIterations 0 (by omega)
  have h0 : f.orbit f.currentDeformMix p 0 = p := rfl
  rw [h0] at hchar
  have hdef : f.CalculateIterations p
      = DeformableFractal.calcIterationsAux f f.currentDeformMix
          f.m_maxIterations 0 p := rfl
  rcases hchar with ⟨heq, hall⟩ | ⟨k, hk, _, hkN, hPk, hmin⟩
  · left
    exact ⟨by rw [hdef, heq], fun i hi => hall i (Nat.zero_le i) hi⟩
  · right
    rw [hdef, hk]
    exact ⟨hkN, hPk, fun j hj => hmin j (Nat.zero_le j) hj⟩

/-- C2 (witness): the characterization applied to the default fractal
configuration (`maxIterations = 200 > 0`) at the origin. -/
theorem CalculateIterations_first_escape_witness :
    0 < ({} : DeformableFractal).m_maxIterations ∧
    ((({} : DeformableFractal).CalculateIterations ⟨0, 0⟩
        = ({} : DeformableFractal).m_maxIterations ∧
      ∀ i < ({} : DeformableFractal).m_maxIterations,
        ¬ ({} : DeformableFractal).m_escapeThreshold <
          (({} : DeformableFractal).orbit
            ({} : DeformableFractal).currentDeformMix ⟨0, 0⟩ (i + 1)).MagnitudeSquared) ∨
    (({} : DeformableFractal).CalculateIterations ⟨0, 0⟩
        < ({} : DeformableFractal).m_maxIterations ∧
      ({} : DeformableFractal).m_escapeThreshold <
        (({} : DeformableFractal).orbit ({} : DeformableFractal).currentDeformMix
          ⟨0, 0⟩ (({} : DeformableFractal).CalculateIterations ⟨0, 0⟩ + 1)).MagnitudeSquared ∧
      ∀ j < ({} : DeformableFractal).CalculateIterations ⟨0, 0⟩,
        ¬ ({} : DeformableFractal).m_escapeThreshold <
          (({} : DeformableFractal).orbit
            ({} : DeformableFractal).currentDeformMix ⟨0, 0⟩ (j + 1)).MagnitudeSquared)) :=
  ⟨by norm_num, CalculateIterations_first_escape {} ⟨0, 0⟩ (by norm_num)⟩

/-! ## C4 — the smooth-coloring guard

The spec requires `log2(log2(m))` to be guarded against `m ≤ 1` by
clamping to the raw iteration count; `CalculateSmooth` has no such
guard.  The fixture `c4Fractal` escapes at iteration `1` with final
magnitude `√0.3136 = 0.56 ≤ 1`, and the code still applies the
unguarded formula (in IEEE arithmetic `log2` of the negative number
`log2(0.56)` is NaN, and `std::max(0.0f, NaN)` yields `0`, not the raw
count `1`). -/

/-- Unfolding step for `calcSmoothAux` when the updated iterate escapes. -/
theorem calcSmoothAux_succ_escape (f : DeformableFractal) (mix : ℝ)
    (fuel i : ℕ) (z : Complex)
    (h : f.m_escapeThreshold < (f.IterStep mix z).MagnitudeSquared) :
    DeformableFractal.calcSmoothAux f mix (fuel + 1) i z
      = max 0 ((i : ℝ) + 1
          - Real.logb 2 (Real.logb 2 (f.IterStep mix z).Magnitude)) := by
  simp only [DeformableFractal.calcSmoothAux]
  rw [if_pos h]

/-- Unfolding step for `calcSmoothAux` when the updated iterate does not
escape. -/
theorem calcSmoothAux_succ_step (f : DeformableFractal) (mix : ℝ)
    (fuel i : ℕ) (z : Complex)
    (h : ¬ f.m_escapeThreshold < (f.IterStep mix z).MagnitudeSquared) :
    DeformableFractal.calcSmoothAux f mix (fuel + 1) i z
      = DeformableFractal.calcSmoothAux f mix fuel (i + 1) (f.IterStep mix z) := by
  simp only [DeformableFractal.calcSmoothAux]
  rw [if_neg h]

/-- C4: on `c4Fractal` the orbit of the origin escapes at raw iteration
count `1` while the final magnitude is still `≤ 1` — the exact region
the spec orders implementations to guard — and `CalculateSmooth` still
returns the unguarded `max 0 (i + 1 - log2 (log2 m))` instead of
clamping to the raw iteration count. -/
theorem CalculateSmooth_unguarded_at_low_magnitude :
    c4Fractal.CalculateIterations ⟨0, 0⟩ = 1 ∧
    (c4Fractal.orbit c4Fractal.currentDeformMix ⟨0, 0⟩ 2).Magnitude ≤ 1 ∧
    c4Fractal.CalculateSmooth ⟨0, 0⟩
      = max 0 (2 - Real.logb 2 (Real.logb 2 (Real.sqrt 0.3136))) := by
  have hmix : c4Fractal.currentDeformMix = 0 := by
    simp [DeformableFractal.currentDeformMix, c4Fractal]
  have hdeform : ∀ (z : Complex) (t : ℝ),
      c4Fractal.Deform z ⟨0, 0, 0, 2, 1, 1⟩ t = z := by
    intro z t
    simp [DeformableFractal.Deform, DeformableFractal.Rotate,
      DeformableFractal.ApplyFunction, c4Fractal]
  have hstep : ∀ z : Complex,
      c4Fractal.IterStep 0 z = z * z + (⟨0.4, 0⟩ : Complex) := by
    intro z
    show (let deformA := c4Fractal.Deform z c4Fractal.m_deformStateA
            c4Fractal.m_breathingTime
          let deformB := c4Fractal.Deform z c4Fractal.m_deformStateB
            c4Fractal.m_breathingTime
          let blended := deformA * (1 - (0:ℝ)) + deformB * (0:ℝ)
          blended * blended + c4Fractal.m_juliaConstant) = _
    have hA : c4Fractal.m_deformStateA = ⟨0, 0, 0, 2, 1, 1⟩ := rfl
    have hB : c4Fractal.m_deformStateB = ⟨0, 0, 0, 2, 1, 1⟩ := rfl
    have hc : c4Fractal.m_juliaConstant = ⟨0.4, 0⟩ := rfl
    simp only [hA, hB, hc, hdeform]
    ext <;> simp
  have hs1 : c4Fractal.IterStep 0 ⟨0, 0⟩ = ⟨0.4, 0⟩ := by
    rw [hstep]
    ext <;> simp
  have hs2 : c4Fractal.IterStep 0 ⟨0.4, 0⟩ = ⟨0.56, 0⟩ := by
    rw [hstep]
    ext <;> norm_num
  have hmag1 : ¬ c4Fractal.m_escapeThreshold
      < (c4Fractal.IterStep 0 ⟨0, 0⟩).MagnitudeSquared := by
    rw [hs1]
    show ¬ (0.2 : ℝ) < 0.4 * 0.4 + 0 * 0
    norm_num
  have hmag2 : c4Fractal.m_escapeThreshold
      < (c4Fractal.IterStep 0 ⟨0.4, 0⟩).MagnitudeSquared := by
    rw [hs2]
    show (0.2 : ℝ) < 0.56 * 0.56 + 0 * 0
    norm_num
  have horbit1 : c4Fractal.orbit 0 ⟨0, 0⟩ 1 = ⟨0.4, 0⟩ := hs1
  have horbit2 : c4Fractal.orbit 0 ⟨0, 0⟩ 2 = ⟨0.56, 0⟩ := by
    show c4Fractal.IterStep 0 (c4Fractal.orbit 0 ⟨0, 0⟩ 1) = _
    rw [horbit1, hs2]
  refine ⟨?_, ?_, ?_⟩
  · show DeformableFractal.calcIterationsAux c4Fractal
      c4Fractal.currentDeformMix c4Fractal.m_maxIterations 0 ⟨0, 0⟩ = 1
    rw [hmix]
    show DeformableFractal.calcIterationsAux c4Fractal 0 2 0 ⟨0, 0⟩ = 1
    rw [show (2 : ℕ) = 1 + 1 from rfl, calcIterationsAux_succ_step _ _ _ _ _ hmag1,
      hs1, calcIterationsAux_succ_escape _ _ _ _ _ hmag2]
  · rw [hmix, horbit2]
    show Real.sqrt (0.56 * 0.56 + 0 * 0) ≤ 1
    rw [show (0.56 : ℝ) * 0.56 + 0 * 0 = 0.3136 by norm_num]
    exact Real.sqrt_le_one.mpr (by norm_num)
  · show DeformableFractal.calcSmoothAux c4Fractal
      c4Fractal.currentDeformMix c4Fractal.m_maxIterations 0 ⟨0, 0⟩ = _
    rw [hmix]
    show DeformableFractal.calcSmoothAux c4Fractal 0 2 0 ⟨0, 0⟩ = _
    rw [show (2 : ℕ) = 1 + 1 from rfl, calcSmoothAux_succ_step _ _ _ _ _ hmag1,
      hs1, calcSmoothAux_succ_escape _ _ _ _ _ hmag2, hs2]
    simp [Complex.Magnitude]
    norm_num

/-! ## C5 — genome application and function-selector decoding -/

/-- C5 (counterexample): `ApplyToFractal` decodes selector genes with
`static_cast<int>` (truncation toward zero), not rounding, and C++ `%`
preserves the sign of a negative operand.  On `c5Genome`
(`functionA.value = 9.7`, `functionB.value = -2`) the code resolves the
A-selector to `9` where the claimed `round(value) mod 11` gives `10`,
and resolves the B-selector to `-2`, outside `[0,10]`. -/
theorem ApplyToFractal_round_counterexample :
    (c5Genome.ApplyToFractal {}).m_deformStateA.function = 9 ∧
    (round (9.7 : ℚ)) % 11 = 10 ∧
    (c5Genome.ApplyToFractal {}).m_deformStateB.function = -2 := by
  refine ⟨?_, ?_, ?_⟩
  · show resolveFunction (9.7 : ℚ) = 9
    have ht : cppTrunc (9.7 : ℚ) = 9 := by
      unfold cppTrunc
      rw [if_pos (by norm_num)]
      norm_num
    unfold resolveFunction
    rw [ht]
    decide
  · norm_num [round_eq]
  · show resolveFunction (-2 : ℚ) = -2
    have ht : cppTrunc (-2 : ℚ) = -2 := by
      unfold cppTrunc
      rw [if_neg (by norm_num), show ((-2 : ℚ)) = ((-2 : ℤ) : ℚ) by norm_num,
        Int.ceil_intCast]
    unfold resolveFunction
    rw [ht]
    decide

/-- C5 (amended): `ApplyToFractal` writes every gene value into the
corresponding configuration field, resolving the function-selector genes
via `trunc(value) tmod 11` (C++ `static_cast<int>` and `%`); the
resolved index lies in `[0,10]` for every nonnegative gene value (in
particular on the declared gene bounds `[0,10]`), while a gene value
`≤ -1` produces a negative index. -/
theorem ApplyToFractal_characterization (g : FractalGenome)
    (f : DeformableFractal) :
    (g.ApplyToFractal f).m_juliaConstant
        = ⟨(g.juliaReal.value : ℝ), (g.juliaImag.value : ℝ)⟩ ∧
    (g.ApplyToFractal f).m_escapeThreshold = (g.escapeThreshold.value : ℝ) ∧
    (g.ApplyToFractal f).m_deformStateA
        = ⟨(g.angleA.value : ℝ), (g.freqA.value : ℝ), (g.phaseA.value : ℝ),
           resolveFunction g.functionA.value,
           (g.edgeGlowA.value : ℝ), (g.edgeHueShiftA.value : ℝ)⟩ ∧
    (g.ApplyToFractal f).m_deformStateB
        = ⟨(g.angleB.value : ℝ), (g.freqB.value : ℝ), (g.phaseB.value : ℝ),
           resolveFunction g.functionB.value,
           (g.edgeGlowB.value : ℝ), (g.edgeHueShiftB.value : ℝ)⟩ ∧
    (g.ApplyToFractal f).m_functionBlend = (g.functionBlend.value : ℝ) ∧
    (g.ApplyToFractal f).m_deformMix = (g.deformMix.value : ℝ) ∧
    (g.ApplyToFractal f).m_shift = (g.shift.value : ℝ) ∧
    (g.ApplyToFractal f).m_parameters "edge_saturation"
        = (g.edgeSaturation.value : ℝ) ∧
    (∀ v : ℚ, 0 ≤ v → 0 ≤ resolveFunction v ∧ resolveFunction v ≤ 10) := by
  refine ⟨rfl, rfl, rfl, rfl, rfl, rfl, rfl, ?_, ?_⟩
  · simp [FractalGenome.ApplyToFractal, DeformableFractal.SetParameter,
      DeformableFractal.SetShift, DeformableFractal.SetDeformMix,
      DeformableFractal.SetFunctionBlend, DeformableFractal.SetJuliaConstant,
      DeformableFractal.SetEscapeThreshold, DeformableFractal.SetDeformStateA,
      DeformableFractal.SetDeformStateB]
  · intro v hv
    have h0 : (0 : ℤ) ≤ cppTrunc v := by
      unfold cppTrunc
      rw [if_pos hv]
      exact Int.floor_nonneg.mpr hv
    refine ⟨Int.tmod_nonneg _ h0, ?_⟩
    have hlt := Int.tmod_lt_of_pos (cppTrunc v) (show (0:ℤ) < 11 by norm_num)
    unfold resolveFunction
    omega

/-- C5 (witness): the amended characterization applied to the default
genome and fractal, with the selector-bound clause instantiated at the
nonnegative gene value `7`. -/
theorem ApplyToFractal_characterization_witness :
    (0 : ℚ) ≤ 7 ∧ (0 ≤ resolveFunction 7 ∧ resolveFunction 7 ≤ 10) :=
  ⟨by norm_num,
   (ApplyToFractal_characterization {} {}).2.2.2.2.2.2.2.2 7 (by norm_num)⟩

/-! ## C6 — elitism in `GenerateOffspring` -/

/-- Every genome produced by the offspring `while` loop is a
crossover-and-mutation child tagged with generation
`currentGeneration + 1` (in particular it is never a verbatim copy made
by the elite loop). -/
theorem offspringLoop_mem (sorted : List FractalGenome)
    (params : EvolutionParameters) (parents : List ℕ) (curGen : ℤ)
    (d : RandomSource) :
    ∀ n k g, g ∈ offspringLoop sorted params parents curGen d n k →
      ∃ j, g = { (FractalGenome.Mutate
          (FractalGenome.Crossover
            (sorted.getD (parents.getD (d.nat j % parents.length) 0) {})
            (sorted.getD (parents.getD (d.nat (j + 1) % parents.length) 0) {})
            d (j + 2)).1
          d params.mutationRate
          (FractalGenome.Crossover
            (sorted.getD (parents.getD (d.nat j % parents.length) 0) {})
            (sorted.getD (parents.getD (d.nat (j + 1) % parents.length) 0) {})
            d (j + 2)).2).1
        with generation := curGen + 1 } := by
  intro n
  induction n with
  | zero =>
    intro k g hg
    simp [offspringLoop] at hg
  | succ m ih =>
    intro k g hg
    simp only [offspringLoop] at hg
    rcases List.mem_cons.mp hg with hhead | htail
    · exact ⟨k, hhead⟩
    · exact ih _ g htail

/-- C6 (counterexample): with population size `4` and
`elitePercentage = 0.2 > 0`, the code's elite count
`static_cast<int>(4 * 0.2) = 0` keeps nothing: on `c6Pop` (best genome
has fitness `4` and marker `juliaReal.value = 4`) every member of the
next generation has `juliaReal.value = 3`, so the best genome does not
appear in generation `N + 1` even though `elitePercentage > 0`. -/
theorem GenerateOffspring_elite_counterexample :
    (0 : ℚ) < c6Params.elitePercentage ∧
    ({ juliaReal := ⟨4, 0.1, -10, 10⟩, fitness := 4 } : FractalGenome) ∈ c6Pop ∧
    (∀ x ∈ c6Pop, x.fitness ≤ (4 : ℚ)) ∧
    ∀ gnm ∈ GenerateOffspring c6Pop c6Params [1, 1] 0 c6Draws 0,
      gnm.juliaReal.value ≠ 4 := by
  have hsort : SortPopulationByFitness c6Pop = c6Pop := by
    norm_num [SortPopulationByFitness, List.insertionSort, List.orderedInsert,
      c6Pop]
  have he : eliteCountOf c6Params = 0 := by
    have : ((4 : ℕ) : ℚ) * (0.2 : ℚ) = 0.8 := by norm_num
    unfold eliteCountOf cppTrunc c6Params
    norm_num
  refine ⟨by norm_num [c6Params], by simp [c6Pop], ?_, ?_⟩
  · intro x hx
    simp only [c6Pop, List.mem_cons, List.not_mem_nil, or_false] at hx
    rcases hx with rfl | rfl | rfl | rfl <;> norm_num
  · intro gnm hg
    simp only [GenerateOffspring, he, hsort, List.take_zero,
      List.nil_append] at hg
    obtain ⟨j, rfl⟩ := offspringLoop_mem c6Pop c6Params [1, 1] 0 c6Draws _ _ gnm hg
    have hnat : ∀ i : ℕ, c6Draws.nat i % ([1, 1] : List ℕ).length = 0 := by
      intro i
      simp [c6Draws]
    have hpar : ∀ i : ℕ, (([1, 1] : List ℕ).getD (c6Draws.nat i % ([1, 1] : List ℕ).length) 0) = 1 := by
      intro i
      rw [hnat i]
      rfl
    rw [hpar, hpar]
    have hgetD : c6Pop.getD 1 {} = { juliaReal := ⟨3, 0.1, -10, 10⟩, fitness := 3 } := rfl
    rw [hgetD]
    -- the child's juliaReal gene survives crossover (both parents equal)
    -- and mutation (uniform draw 1 is never below the mutation probability)
    show (mutateGene c6Draws c6Params.mutationRate
        (crossoverGene c6Draws (⟨3, 0.1, -10, 10⟩ : Gene) ⟨3, 0.1, -10, 10⟩ (j + 2)).1 _).1.value ≠ 4
    have hcross : (crossoverGene c6Draws (⟨3, 0.1, -10, 10⟩ : Gene)
        ⟨3, 0.1, -10, 10⟩ (j + 2)).1 = ⟨3, 0.1, -10, 10⟩ := by
      unfold crossoverGene
      rw [ite_self]
      norm_num
    rw [hcross]
    unfold mutateGene
    rw [if_neg (by norm_num [c6Draws, c6Params])]
    norm_num

/-- C6 (amended): the elite prefix of the next generation is the
`static_cast<int>(populationSize * elitePercentage)` (truncation, not
rounding) top genomes of the descending-sorted population, copied
verbatim; and a best-fitness genome of generation `N` appears unchanged
in generation `N + 1` exactly when that truncated count is at least `1`
(`elitePercentage > 0` alone does not suffice). -/
theorem GenerateOffspring_elite_truncation (pop : List FractalGenome)
    (params : EvolutionParameters) (parents : List ℕ) (curGen : ℤ)
    (d : RandomSource) (k : ℕ)
    (hcount : eliteCountOf params ≤ pop.length) :
    (GenerateOffspring pop params parents curGen d k).take (eliteCountOf params)
      = (SortPopulationByFitness pop).take (eliteCountOf params) ∧
    (1 ≤ eliteCountOf params →
      ∃ b ∈ GenerateOffspring pop params parents curGen d k,
        b ∈ pop ∧ ∀ x ∈ pop, x.fitness ≤ b.fitness) := by
  have hlen : (SortPopulationByFitness pop).length = pop.length :=
    List.length_insertionSort _ _
  have hlenelite :
      ((SortPopulationByFitness pop).take (eliteCountOf params)).length
        = eliteCountOf params := by
    rw [List.length_take]
    omega
  have hperm : (SortPopulationByFitness pop).Perm pop :=
    List.perm_insertionSort _ _
  have hsorted : List.Sorted (fun a b => b.fitness ≤ a.fitness)
      (SortPopulationByFitness pop) := List.sorted_insertionSort _ _
  constructor
  · show ((SortPopulationByFitness pop).take (eliteCountOf params)
      ++ offspringLoop _ _ _ _ _ _ _).take (eliteCountOf params) = _
    rw [List.take_append_eq_append_take, hlenelite, Nat.sub_self,
      List.take_zero, List.append_nil, List.take_take, Nat.min_self]
  · intro h1
    obtain ⟨b, t, hbt⟩ : ∃ b t, SortPopulationByFitness pop = b :: t := by
      cases hsort : SortPopulationByFitness pop with
      | nil => rw [hsort] at hlen; simp at hlen; omega
      | cons b t => exact ⟨b, t, rfl⟩
    have hbmem : b ∈ SortPopulationByFitness pop := by
      rw [hbt]; exact List.mem_cons_self b t
    refine ⟨b, ?_, hperm.mem_iff.mp hbmem, ?_⟩
    · show b ∈ (SortPopulationByFitness pop).take (eliteCountOf params)
        ++ offspringLoop _ _ _ _ _ _ _
      apply List.mem_append_left
      rw [hbt]
      cases hn : eliteCountOf params with
      | zero => omega
      | succ m => simp [List.take]
    · intro x hx
      have hxs : x ∈ SortPopulationByFitness pop := hperm.mem_iff.mpr hx
      rw [hbt] at hxs hsorted
      rcases List.mem_cons.mp hxs with rfl | hxt
      · exact le_refl _
      · exact List.rel_of_sorted_cons hsorted x hxt

/-- C6 (witness): the amended statement applied to a one-genome
population with `elitePercentage = 1`, where the truncated elite count
is `1`. -/
theorem GenerateOffspring_elite_truncation_witness :
    eliteCountOf { populationSize := 1, elitePercentage := 1 } ≤
      [({} : FractalGenome)].length ∧
    ((GenerateOffspring [({} : FractalGenome)]
        { populationSize := 1, elitePercentage := 1 } [0] 0
        ⟨fun _ => 1, fun _ _ => 0, fun _ => 0⟩ 0).take
          (eliteCountOf { populationSize := 1, elitePercentage := 1 })
        = (SortPopulationByFitness [({} : FractalGenome)]).take
          (eliteCountOf { populationSize := 1, elitePercentage := 1 }) ∧
      (1 ≤ eliteCountOf { populationSize := 1, elitePercentage := 1 } →
        ∃ b ∈ GenerateOffspring [({} : FractalGenome)]
            { populationSize := 1, elitePercentage := 1 } [0] 0
            ⟨fun _ => 1, fun _ _ => 0, fun _ => 0⟩ 0,
          b ∈ [({} : FractalGenome)] ∧
          ∀ x ∈ [({} : FractalGenome)], x.fitness ≤ b.fitness)) :=
  ⟨by norm_num [eliteCountOf, cppTrunc],
   GenerateOffspring_elite_truncation _ _ _ _ _ _
     (by norm_num [eliteCountOf, cppTrunc])⟩

/-! ## C7 — mutation stays within gene bounds -/

/-- The per-gene mutation step preserves the `[min, max]` invariant for
every draw oracle: an untouched gene keeps its in-bounds value, and a
mutated gene is clamped. -/
theorem mutateGene_inBounds (d : RandomSource) (r : ℚ) (g : Gene) (k : ℕ)
    (h : geneInBounds g) : geneInBounds (mutateGene d r g k).1 := by
  have hminmax : g.min ≤ g.max := le_trans h.1 h.2
  unfold mutateGene
  split_ifs with hc
  · show geneInBounds { g with value := ratClamp _ g.min g.max }
    unfold geneInBounds ratClamp
    dsimp only
    split_ifs with h1 h2
    · exact ⟨le_refl _, hminmax⟩
    · exact ⟨hminmax, le_refl _⟩
    · exact ⟨not_lt.mp h1, not_lt.mp h2⟩
  · exact h

/-- C7: for every genome whose genes are within their bounds, every draw
oracle, every global mutation rate and every stream position, `Mutate`
leaves every gene inside `[min, max]`; and a gene whose mutation draw
fires receives the `normal_distribution(0, (max - min) * 0.1)` sample
and is then clamped into `[min, max]`. -/
theorem Mutate_preserves_bounds (gnm : FractalGenome) (d : RandomSource)
    (r : ℚ) (k : ℕ) (h : genomeInBounds gnm) :
    genomeInBounds (gnm.Mutate d r k).1 ∧
    (∀ (g : Gene) (j : ℕ), d.unif j < g.mutationRate * r →
      (mutateGene d r g j).1.value
        = ratClamp (g.value + d.gauss (j + 1) ((g.max - g.min) * 0.1))
            g.min g.max) := by
  constructor
  · obtain ⟨h1, h2, h3, h4, h5, h6, h7, h8, h9, h10, h11, h12, h13, h14,
      h15, h16, h17, h18, h19⟩ := h
    exact ⟨mutateGene_inBounds _ _ _ _ h1, mutateGene_inBounds _ _ _ _ h2,
      mutateGene_inBounds _ _ _ _ h3, mutateGene_inBounds _ _ _ _ h4,
      mutateGene_inBounds _ _ _ _ h5, mutateGene_inBounds _ _ _ _ h6,
      mutateGene_inBounds _ _ _ _ h7, mutateGene_inBounds _ _ _ _ h8,
      mutateGene_inBounds _ _ _ _ h9, mutateGene_inBounds _ _ _ _ h10,
      mutateGene_inBounds _ _ _ _ h11, mutateGene_inBounds _ _ _ _ h12,
      mutateGene_inBounds _ _ _ _ h13, mutateGene_inBounds _ _ _ _ h14,
      mutateGene_inBounds _ _ _ _ h15, mutateGene_inBounds _ _ _ _ h16,
      mutateGene_inBounds _ _ _ _ h17, mutateGene_inBounds _ _ _ _ h18,
      mutateGene_inBounds _ _ _ _ h19⟩
  · intro g j hc
    unfold mutateGene
    rw [if_pos hc]

/-- C7 (witness): the bound-preservation applied to the default genome
with an always-firing oracle whose Gaussian sample is `100`, and the
clamp equation instantiated at the default-constructed gene. -/
theorem Mutate_preserves_bounds_witness :
    genomeInBounds ({} : FractalGenome) ∧
    c7Draws.unif 0 < (⟨0, 0.1, -10, 10⟩ : Gene).mutationRate * (1 : ℚ) ∧
    genomeInBounds (({} : FractalGenome).Mutate c7Draws 1 0).1 ∧
    (mutateGene c7Draws 1 (⟨0, 0.1, -10, 10⟩ : Gene) 0).1.value
      = ratClamp ((0 : ℚ) + c7Draws.gauss 1 (((10 : ℚ) - (-10)) * 0.1))
          (-10) 10 := by
  have hb : genomeInBounds ({} : FractalGenome) := by
    refine ⟨?_, ?_, ?_, ?_, ?_, ?_, ?_, ?_, ?_, ?_, ?_, ?_, ?_, ?_, ?_,
      ?_, ?_, ?_, ?_⟩ <;> constructor <;> norm_num
  have hc : c7Draws.unif 0
      < (⟨0, 0.1, -10, 10⟩ : Gene).mutationRate * (1 : ℚ) := by
    norm_num [c7Draws]
  exact ⟨hb, hc, (Mutate_preserves_bounds {} c7Draws 1 0 hb).1,
    (Mutate_preserves_bounds {} c7Draws 1 0 hb).2 ⟨0, 0.1, -10, 10⟩ 0 hc⟩

/-! ## C8 — the structural-gene L1 distance -/

/-- C8: `CalculateDistance` — the L1 sum over exactly the structural
genes (julia constant real/imaginary, escape threshold, and both deform
states' angle, freq, phase and function selector) — vanishes on the
diagonal, is symmetric, vanishes exactly when the two genomes agree on
that structural subset, and satisfies the triangle inequality. -/
theorem CalculateDistance_metric :
    (∀ a : FractalGenome, a.CalculateDistance a = 0) ∧
    (∀ a b : FractalGenome, a.CalculateDistance b = b.CalculateDistance a) ∧
    (∀ a b : FractalGenome, a.CalculateDistance b = 0 ↔
      (a.juliaReal.value = b.juliaReal.value ∧
       a.juliaImag.value = b.juliaImag.value ∧
       a.escapeThreshold.value = b.escapeThreshold.value ∧
       a.angleA.value = b.angleA.value ∧
       a.freqA.value = b.freqA.value ∧
       a.phaseA.value = b.phaseA.value ∧
       a.functionA.value = b.functionA.value ∧
       a.angleB.value = b.angleB.value ∧
       a.freqB.value = b.freqB.value ∧
       a.phaseB.value = b.phaseB.value ∧
       a.functionB.value = b.functionB.value)) ∧
    (∀ a b c : FractalGenome,
      a.CalculateDistance c
        ≤ a.CalculateDistance b + b.CalculateDistance c) := by
  refine ⟨?_, ?_, ?_, ?_⟩
  · intro a
    simp [FractalGenome.CalculateDistance]
  · intro a b
    simp [FractalGenome.CalculateDistance, abs_sub_comm]
  · intro a b
    unfold FractalGenome.CalculateDistance
    constructor
    · intro h
      have n1 := abs_nonneg (a.juliaReal.value - b.juliaReal.value)
      have n2 := abs_nonneg (a.juliaImag.value - b.juliaImag.value)
      have n3 := abs_nonneg (a.escapeThreshold.value - b.escapeThreshold.value)
      have n4 := abs_nonneg (a.angleA.value - b.angleA.value)
      have n5 := abs_nonneg (a.freqA.value - b.freqA.value)
      have n6 := abs_nonneg (a.phaseA.value - b.phaseA.value)
      have n7 := abs_nonneg (a.functionA.value - b.functionA.value)
      have n8 := abs_nonneg (a.angleB.value - b.angleB.value)
      have n9 := abs_nonneg (a.freqB.value - b.freqB.value)
      have n10 := abs_nonneg (a.phaseB.value - b.phaseB.value)
      have n11 := abs_nonneg (a.functionB.value - b.functionB.value)
      refine ⟨?_, ?_, ?_, ?_, ?_, ?_, ?_, ?_, ?_, ?_, ?_⟩ <;>
        · rw [← sub_eq_zero]
          rw [← abs_eq_zero]
          linarith
    · intro h
      obtain ⟨e1, e2, e3, e4, e5, e6, e7, e8, e9, e10, e11⟩ := h
      rw [e1, e2, e3, e4, e5, e6, e7, e8, e9, e10, e11]
      simp
  · intro a b c
    unfold FractalGenome.CalculateDistance
    have t1 := abs_sub_le a.juliaReal.value b.juliaReal.value c.juliaReal.value
    have t2 := abs_sub_le a.juliaImag.value b.juliaImag.value c.juliaImag.value
    have t3 := abs_sub_le a.escapeThreshold.value b.escapeThreshold.value
      c.escapeThreshold.value
    have t4 := abs_sub_le a.angleA.value b.angleA.value c.angleA.value
    have t5 := abs_sub_le a.freqA.value b.freqA.value c.freqA.value
    have t6 := abs_sub_le a.phaseA.value b.phaseA.value c.phaseA.value
    have t7 := abs_sub_le a.functionA.value b.functionA.value c.functionA.value
    have t8 := abs_sub_le a.angleB.value b.angleB.value c.angleB.value
    have t9 := abs_sub_le a.freqB.value b.freqB.value c.freqB.value
    have t10 := abs_sub_le a.phaseB.value b.phaseB.value c.phaseB.value
    have t11 := abs_sub_le a.functionB.value b.functionB.value c.functionB.value
    linarith

/-! ## C9 — gallery name generation -/

/-- The map `Nat.digitChar` is injective below the base `10`. -/
theorem digitChar_injOn :
    ∀ a, a < 10 → ∀ b, b < 10 → Nat.digitChar a = Nat.digitChar b → a = b := by
  decide

/-- Mapping `Nat.digitChar` over digit lists (all entries `< 10`) is
injective. -/
theorem map_digitChar_inj : ∀ l1 l2 : List ℕ, (∀ x ∈ l1, x < 10) →
    (∀ x ∈ l2, x < 10) → l1.map Nat.digitChar = l2.map Nat.digitChar →
    l1 = l2 := by
  intro l1
  induction l1 with
  | nil =>
    intro l2 _ _ h
    cases l2 with
    | nil => rfl
    | cons b t => simp at h
  | cons a t1 ih =>
    intro l2 h1 h2 h
    cases l2 with
    | nil => simp at h
    | cons b t2 =>
      simp only [List.map_cons, List.cons.injEq] at h
      have ha : a = b := digitChar_injOn a (h1 a (List.mem_cons_self a t1)) b
        (h2 b (List.mem_cons_self b t2)) h.1
      have ht : t1 = t2 := ih t2 (fun x hx => h1 x (List.mem_cons_of_mem a hx))
        (fun x hx => h2 x (List.mem_cons_of_mem b hx)) h.2
      rw [ha, ht]

/-- The decimal rendering of nonzero naturals is injective. -/
theorem natToDec_inj (m n : ℕ) (hm : m ≠ 0) (hn : n ≠ 0)
    (h : natToDec m = natToDec n) : m = n := by
  unfold natToDec at h
  rw [if_neg hm, if_neg hn] at h
  have hdata := congrArg String.data h
  have hrev : ((Nat.digits 10 m).map Nat.digitChar).reverse
      = ((Nat.digits 10 n).map Nat.digitChar).reverse := hdata
  have hmap := List.reverse_injective hrev
  have hdig : Nat.digits 10 m = Nat.digits 10 n :=
    map_digitChar_inj _ _
      (fun x hx => Nat.digits_lt_base (by norm_num) hx)
      (fun x hx => Nat.digits_lt_base (by norm_num) hx) hmap
  exact Nat.digits.injective 10 hdig

/-- A nonzero natural renders to a nonempty decimal string. -/
theorem natToDec_length_pos (n : ℕ) (hn : n ≠ 0) :
    0 < (natToDec n).length := by
  unfold natToDec
  rw [if_neg hn]
  show 0 < (((Nat.digits 10 n).map Nat.digitChar).reverse).length
  rw [List.length_reverse, List.length_map]
  exact List.length_pos.mpr (Nat.digits_ne_nil_iff_ne_zero.mpr hn)

/-- The candidate names tried by `GenerateUniqueName` are pairwise
distinct. -/
theorem candidateName_inj (baseName : String) :
    ∀ j k, candidateName baseName j = candidateName baseName k → j = k := by
  have hlen : ∀ i : ℕ, i ≠ 0 →
      (candidateName baseName i).length
        = baseName.length + 1 + (natToDec i).length := by
    intro i hi
    cases i with
    | zero => exact absurd rfl hi
    | succ m =>
      show ((baseName ++ "_") ++ natToDec (m + 1)).length = _
      rw [String.length_append, String.length_append]
      rfl
  intro j k h
  cases j with
  | zero =>
    cases k with
    | zero => rfl
    | succ m =>
      have := congrArg String.length h
      rw [hlen (m + 1) (Nat.succ_ne_zero m)] at this
      have h0 : (candidateName baseName 0).length = baseName.length := rfl
      rw [h0] at this
      have hpos := natToDec_length_pos (m + 1) (Nat.succ_ne_zero m)
      show (0 : ℕ) = m + 1
      omega
  | succ j' =>
    cases k with
    | zero =>
      have := congrArg String.length h
      rw [hlen (j' + 1) (Nat.succ_ne_zero j')] at this
      have h0 : (candidateName baseName 0).length = baseName.length := rfl
      rw [h0] at this
      have hpos := natToDec_length_pos (j' + 1) (Nat.succ_ne_zero j')
      show j' + 1 = 0
      omega
    | succ k' =>
      have hdata := congrArg String.data h
      show j' + 1 = k' + 1
      have hd : (baseName ++ "_").data ++ (natToDec (j' + 1)).data
          = (baseName ++ "_").data ++ (natToDec (k' + 1)).data := by
        rw [← String.data_append, ← String.data_append]
        exact hdata
      have hnd : (natToDec (j' + 1)).data = (natToDec (k' + 1)).data :=
        List.append_cancel_left hd
      have := natToDec_inj (j' + 1) (k' + 1) (Nat.succ_ne_zero j')
        (Nat.succ_ne_zero k') (String.ext hnd)
      omega

/-- Among the first `entries.length + 1` candidate names, at least one
collides with no existing entry (pigeonhole). -/
theorem exists_candidate_not_collides (entries : List GalleryEntry)
    (baseName : String) :
    ∃ j, j < entries.length + 1 ∧
      ¬ collides entries (candidateName baseName j) := by
  by_contra hcon
  push_neg at hcon
  have hmem : ∀ j ∈ Finset.range (entries.length + 1),
      candidateName baseName j ∈ (entries.map GalleryEntry.name).toFinset := by
    intro j hj
    obtain ⟨e, he, hname⟩ := hcon j (Finset.mem_range.mp hj)
    rw [List.mem_toFinset]
    exact hname ▸ List.mem_map_of_mem GalleryEntry.name he
  have hinj : Set.InjOn (candidateName baseName)
      (Finset.range (entries.length + 1)) := by
    intro a _ b _ hab
    exact candidateName_inj baseName a b hab
  have hcard := Finset.card_le_card_of_injOn (candidateName baseName)
    hmem hinj
  rw [Finset.card_range] at hcard
  have hlist := List.toFinset_card_le (entries.map GalleryEntry.name)
  rw [List.length_map] at hlist
  omega

/-- If some candidate within the remaining fuel is collision-free, the
search loop of `GenerateUniqueName` returns a collision-free name. -/
theorem findFreeName_free (entries : List GalleryEntry) (baseName : String) :
    ∀ fuel k, (∃ j, j < fuel ∧
        ¬ collides entries (candidateName baseName (k + j))) →
      ¬ collides entries (findFreeName entries baseName fuel k) := by
  intro fuel
  induction fuel with
  | zero =>
    intro k h
    obtain ⟨j, hj, _⟩ := h
    omega
  | succ m ih =>
    intro k h
    show ¬ collides entries
      (if collides entries (candidateName baseName k) then
        findFreeName entries baseName m (k + 1)
      else candidateName baseName k)
    split_ifs with hcol
    · obtain ⟨j, hj, hfree⟩ := h
      cases j with
      | zero => exact absurd hcol (by simpa using hfree)
      | succ j' =>
        apply ih (k + 1)
        refine ⟨j', by omega, ?_⟩
        rw [show k + 1 + j' = k + (j' + 1) by omega]
        exact hfree
    · exact hcol

/-- The name produced by `GenerateUniqueName` collides with no existing
entry. -/
theorem GenerateUniqueName_not_collides (entries : List GalleryEntry)
    (baseName : String) :
    ¬ collides entries (GenerateUniqueName entries baseName) := by
  unfold GenerateUniqueName
  apply findFreeName_free
  obtain ⟨j, hj, hfree⟩ := exists_candidate_not_collides entries baseName
  exact ⟨j, hj, by simpa using hfree⟩

/-- C9: two successive `AddFractal` calls with empty names append two
entries whose generated names differ from each other and from every
pre-existing entry's name, and both entries are returned by
`GetAllFractals`. -/
theorem AddFractal_unique_names (g : FractalGallery)
    (genome1 genome2 : FractalGenome) (fit1 fit2 : ℚ)
    (desc1 desc2 : String) :
    ∃ e1 e2 : GalleryEntry,
      ((g.AddFractal genome1 fit1 "" desc1).AddFractal genome2 fit2 ""
          desc2).GetAllFractals = g.m_entries ++ [e1, e2] ∧
      e1.name ≠ e2.name ∧
      (∀ e ∈ g.m_entries, e.name ≠ e1.name ∧ e.name ≠ e2.name) ∧
      e1 ∈ ((g.AddFractal genome1 fit1 "" desc1).AddFractal genome2 fit2 ""
          desc2).GetAllFractals ∧
      e2 ∈ ((g.AddFractal genome1 fit1 "" desc1).AddFractal genome2 fit2 ""
          desc2).GetAllFractals := by
  set e1 : GalleryEntry :=
    { genome := genome1, fitness := fit1,
      name := GenerateUniqueName g.m_entries "Fractal",
      description := desc1, generation := genome1.generation } with he1
  set e2 : GalleryEntry :=
    { genome := genome2, fitness := fit2,
      name := GenerateUniqueName (g.m_entries ++ [e1]) "Fractal",
      description := desc2, generation := genome2.generation } with he2
  have hfree1 := GenerateUniqueName_not_collides g.m_entries "Fractal"
  have hfree2 := GenerateUniqueName_not_collides (g.m_entries ++ [e1]) "Fractal"
  have hall : ((g.AddFractal genome1 fit1 "" desc1).AddFractal genome2 fit2 ""
      desc2).GetAllFractals = g.m_entries ++ [e1, e2] := by
    show (g.m_entries ++ [e1]) ++ [e2] = g.m_entries ++ [e1, e2]
    rw [List.append_assoc]
    rfl
  refine ⟨e1, e2, hall, ?_, ?_, ?_, ?_⟩
  · intro hname
    exact hfree2 ⟨e1, List.mem_append_right _ (List.mem_singleton_self e1),
      hname⟩
  · intro e he
    constructor
    · intro hname
      exact hfree1 ⟨e, he, hname⟩
    · intro hname
      exact hfree2 ⟨e, List.mem_append_left _ he, hname⟩
  · rw [hall]
    exact List.mem_append_right _ (List.mem_cons_self e1 [e2])
  · rw [hall]
    exact List.mem_append_right _
      (List.mem_cons_of_mem e1 (List.mem_singleton_self e2))

/-! ## C10 — `GetBestIndividual` -/

/-- The `std::max_element` fold keeps a member of the list of maximal
fitness. -/
theorem foldl_best_spec (h : FractalGenome) (t : List FractalGenome) :
    (t.foldl (fun best cand =>
      if best.fitness < cand.fitness then cand else best) h) ∈ h :: t ∧
    ∀ x ∈ h :: t, x.fitness ≤ (t.foldl (fun best cand =>
      if best.fitness < cand.fitness then cand else best) h).fitness := by
  induction t generalizing h with
  | nil =>
    refine ⟨List.mem_singleton_self h, ?_⟩
    intro x hx
    rw [List.mem_singleton.mp hx]
    exact le_refl _
  | cons y t' ih =>
    obtain ⟨ihmem, ihle⟩ := ih (if h.fitness < y.fitness then y else h)
    constructor
    · rcases List.mem_cons.mp ihmem with heq | hmem
      · rw [List.foldl_cons, heq]
        split_ifs
        · exact List.mem_cons_of_mem h (List.mem_cons_self y t')
        · exact List.mem_cons_self h (y :: t')
      · exact List.mem_cons_of_mem h (List.mem_cons_of_mem y hmem)
    · intro x hx
      rcases List.mem_cons.mp hx with rfl | hx2
      · have h1 : x.fitness
            ≤ (if x.fitness < y.fitness then y else x).fitness := by
          split_ifs with hf
          · exact le_of_lt hf
          · exact le_refl _
        exact le_trans h1 (ihle _ (List.mem_cons_self _ _))
      · rcases List.mem_cons.mp hx2 with rfl | hx3
        · have h1 : x.fitness
              ≤ (if h.fitness < x.fitness then x else h).fitness := by
            split_ifs with hf
            · exact le_refl _
            · exact le_of_not_lt hf
          exact le_trans h1 (ihle _ (List.mem_cons_self _ _))
        · exact ihle x (List.mem_cons_of_mem _ hx3)

/-- C10: on an empty population `GetBestIndividual` returns the
default-constructed genome (every gene at its declared header default,
fitness `0`, generation `0`); on a non-empty population it returns a
member of maximal fitness. -/
theorem GetBestIndividual_spec :
    GetBestIndividual []
      = { juliaReal := ⟨0.355, 0.05, -2, 2⟩, juliaImag := ⟨0.355, 0.05, -2, 2⟩,
          escapeThreshold := ⟨4, 0.02, 2, 10⟩,
          angleA := ⟨0, 0.1, -3.14159, 3.14159⟩, freqA := ⟨1, 0.08, 0.1, 3⟩,
          phaseA := ⟨0, 0.1, -3.14159, 3.14159⟩, functionA := ⟨0, 0.3, 0, 10⟩,
          edgeGlowA := ⟨1, 0.05, 0.1, 2⟩, edgeHueShiftA := ⟨1, 0.05, 0.1, 2⟩,
          angleB := ⟨0, 0.1, -3.14159, 3.14159⟩, freqB := ⟨1, 0.08, 0.1, 3⟩,
          phaseB := ⟨0, 0.1, -3.14159, 3.14159⟩, functionB := ⟨1, 0.3, 0, 10⟩,
          edgeGlowB := ⟨1, 0.05, 0.1, 2⟩, edgeHueShiftB := ⟨1, 0.05, 0.1, 2⟩,
          functionBlend := ⟨0, 0.03, 0, 1⟩, deformMix := ⟨0, 0.03, 0, 1⟩,
          shift := ⟨0, 0.05, -2, 2⟩, edgeSaturation := ⟨1, 0.02, 0, 2⟩,
          fitness := 0, generation := 0, age := 0, parentIDs := [] } ∧
    ∀ pop : List FractalGenome, pop ≠ [] →
      GetBestIndividual pop ∈ pop ∧
      ∀ x ∈ pop, x.fitness ≤ (GetBestIndividual pop).fitness := by
  constructor
  · rfl
  · intro pop hpop
    cases pop with
    | nil => exact absurd rfl hpop
    | cons h t => exact foldl_best_spec h t

/-- C10 (witness): the non-empty branch applied to the singleton
population holding the default genome. -/
theorem GetBestIndividual_spec_witness :
    ([({} : FractalGenome)] ≠ ([] : List FractalGenome)) ∧
    (GetBestIndividual [({} : FractalGenome)] ∈ [({} : FractalGenome)] ∧
      ∀ x ∈ [({} : FractalGenome)],
        x.fitness ≤ (GetBestIndividual [({} : FractalGenome)]).fitness) :=
  ⟨by simp, GetBestIndividual_spec.2 [{}] (by simp)⟩

end Union
